import Mathlib

/-!
# mbedCopter sensor drivers: a shallow embedding

Embedding of `src/src/gyro.cpp` (L3GD20-style gyroscope driver) and
`src/src/altitude.cpp` (BMP085-style barometer driver), together with a model of
`Attitude::calculate`, whose body is not part of the sources at hand.

Conventions.
* C integers are `Int` values; every conversion to a fixed-width type is an explicit
  reduction modulo `2 ^ w` (`toU8`, `toI16`, ...).  Signed arithmetic that leaves the
  32-bit range wraps.
* `>>` on a signed operand is the arithmetic shift, i.e. floor division by a power of
  two (`/` on `Int` rounds towards minus infinity for a positive divisor); C division is
  `Int.tdiv`.
* `float` values are rationals; every float operation rounds its exact result to the
  nearest binary32 number (`roundF32`).
* The I2C bus is a deterministic device: what it answers is a function of the history
  of operations, which the bus state records.
-/

namespace MbedCopter

/-! ## Fixed-width integers -/

/-- Conversion to `uint8_t`. -/
def toU8 (x : Int) : Int := x % 256

/-- Conversion to `uint16_t`. -/
def toU16 (x : Int) : Int := x % 65536

/-- Conversion to `uint32_t`. -/
def toU32 (x : Int) : Int := x % 4294967296

/-- Conversion to `int8_t` (two's complement). -/
def toI8 (x : Int) : Int := (x + 128) % 256 - 128

/-- Conversion to `int16_t` (two's complement). -/
def toI16 (x : Int) : Int := (x + 32768) % 65536 - 32768

/-- Conversion to `int32_t` (two's complement). -/
def toI32 (x : Int) : Int := (x + 2147483648) % 4294967296 - 2147483648

/-- Bitwise OR of two `int` operands, computed on their 32-bit two's-complement
patterns. -/
def orInt (a b : Int) : Int :=
  toI32 (Int.ofNat (Nat.lor (toU32 a).toNat (toU32 b).toNat))

/-! ## binary32 rounding -/

/-- Round a rational to the nearest integer, ties to even. -/
def roundHalfEven (x : ℚ) : Int :=
  let f := ⌊x⌋
  let r := x - f
  if r < 1 / 2 then f
  else if 1 / 2 < r then f + 1
  else if f % 2 = 0 then f else f + 1

/-- Exponent of the unit in the last place of the binary32 binade that holds `q`:
24 significant bits, subnormals below `2 ^ (-126)`. -/
def ulpExp (q : ℚ) : Int := max (Int.log 2 |q| - 23) (-149)

/-- Round to the nearest binary32 value (round-to-nearest-even).  Overflow to
infinity is not represented: the drivers only produce values far below the largest
finite float. -/
def roundF32 (q : ℚ) : ℚ :=
  (roundHalfEven (q / (2 : ℚ) ^ ulpExp q) : ℚ) * (2 : ℚ) ^ ulpExp q

/-- Conversion of an integer to `float`. -/
def floatOfInt (x : Int) : ℚ := roundF32 x

/-- Product of two `float`s. -/
def fmul (a b : ℚ) : ℚ := roundF32 (a * b)

/-- Quotient of two `float`s (the divisor is non-zero wherever the drivers divide). -/
def fdiv (a b : ℚ) : ℚ := roundF32 (a / b)

/-! ## Error codes and the I2C bus -/

/-- The integer constants of `errors.h`, which is not among the sources; they are
parameters of the embedding.  `attitude.h` documents the convention (`0 on success`);
where a property depends on it, the theorem says so in a hypothesis. -/
structure ErrorCodes where
  SUCCESS : Int
  ERR_ARGUMENT : Int
  ERR_GYRO_WRITE : Int
  ERR_GYRO_READ : Int
  ERR_ALT_WRITE : Int
  ERR_ALT_READ : Int

/-- One operation on the bus, as the drivers issue it. -/
inductive BusOp where
  | write (address : Nat) (data : List Int) (repeated : Bool)
  | read (address : Nat) (length : Nat) (repeated : Bool)
  deriving DecidableEq, Repr

/-- An I2C bus with its attached devices.  `status` is the return value of an
operation (zero: acknowledged), `rx` the bytes a read delivers; both depend on the
operations performed so far, which `log` records oldest first. -/
structure I2C where
  status : List BusOp → BusOp → Int
  rx : List BusOp → Nat → Int
  log : List BusOp

/-- Model of `I2C::write(address, data, length, repeated)`: the status and the bus
afterwards. -/
def I2C.write (i : I2C) (address : Nat) (data : List Int) (repeated : Bool) : Int × I2C :=
  (i.status i.log (BusOp.write address data repeated),
   { i with log := i.log ++ [BusOp.write address data repeated] })

/-- Model of `I2C::read(address, data, length, repeated)`: the status, the `length`
bytes received and the bus afterwards. -/
def I2C.read (i : I2C) (address : Nat) (length : Nat) (repeated : Bool) :
    Int × List Int × I2C :=
  (i.status i.log (BusOp.read address length repeated),
   (List.range length).map (fun k => toU8 (i.rx i.log k)),
   { i with log := i.log ++ [BusOp.read address length repeated] })

/-! ## gyro.cpp -/

/-- Modelled from the spec: the type `Gyro::Range`, whose declaration in `sensors.h` is
missing: the three recognized range options of section 6 under the names gyro.cpp
gives them, and `other` for an unrecognized value, which a C++ enumeration object can
also hold. -/
inductive Range where
  | r250DPS
  | r500DPS
  | r2000DPS
  | other (raw : Int)
  deriving DecidableEq, Repr

/-- The three ranges the driver knows. -/
def Range.recognized : Range → Bool
  | .r250DPS => true
  | .r500DPS => true
  | .r2000DPS => true
  | .other _ => false

/-- Full-scale value, in degrees per second, of a recognized range. -/
def Range.dps : Range → Option Int
  | .r250DPS => some 250
  | .r500DPS => some 500
  | .r2000DPS => some 2000
  | .other _ => none

/-- A `Gyro` object: the bus it talks to, the configured range and the constants
`address`, `register1`, `register4`, `registerOut`, whose values `sensors.h` fixes and
which are parameters here. -/
structure Gyro where
  i2c : I2C
  range : Range
  address : Nat
  register1 : Int
  register4 : Int
  registerOut : Int

/-- The caller's array `float v[3]`. -/
structure Vec3 where
  v0 : ℚ
  v1 : ℚ
  v2 : ℚ
  deriving DecidableEq, Repr

/-- Model of `Gyro::init` (gyro.cpp 8-34): return code and object afterwards. -/
def Gyro.init (E : ErrorCodes) (g : Gyro) (r : Range) : Int × Gyro :=
  let g := { g with range := r }
  let v : Option Int :=
    match g.range with
    | .r250DPS => some 0x00
    | .r500DPS => some 0x10
    | .r2000DPS => some 0x20
    | .other _ => none
  match v with
  | none => (E.ERR_ARGUMENT, g)
  | some v =>
    let w1 := g.i2c.write g.address [toU8 g.register1, 0x0F] false
    let g := { g with i2c := w1.2 }
    if w1.1 ≠ 0 then (E.ERR_GYRO_WRITE, g)
    else
      let w2 := g.i2c.write g.address [toU8 g.register4, v] false
      let g := { g with i2c := w2.2 }
      if w2.1 ≠ 0 then (E.ERR_GYRO_WRITE, g)
      else (E.SUCCESS, g)

/-- Assembly of one axis sample (gyro.cpp 55-57): reinterpret the high byte as
`int8_t`, multiply by `1 << 8`, OR in the low byte; every assignment converts back to
`int16_t`. -/
def Gyro.sample (lo hi : Int) : Int :=
  let x := toI16 (toI8 hi)
  let x := toI16 (x * 256)
  toI16 (orInt x lo)

/-- The expression `((float)x) * R / 0x8000` (gyro.cpp 67-79). -/
def Gyro.scale (x : Int) (R : Int) : ℚ :=
  fdiv (fmul (floatOfInt x) (floatOfInt R)) (floatOfInt 0x8000)

/-- Model of `Gyro::read` (gyro.cpp 36-86).  The argument is `none` for a NULL
pointer and `some v` for a pointer to an array holding `v`; the result is the return
code, the object afterwards and the array afterwards. -/
def Gyro.read (E : ErrorCodes) (g : Gyro) (v : Option Vec3) : Int × Gyro × Option Vec3 :=
  match v with
  | none => (E.ERR_ARGUMENT, g, none)
  | some v =>
    let w := g.i2c.write g.address [toU8 (orInt g.registerOut 0x80)] true
    let g := { g with i2c := w.2 }
    if w.1 ≠ 0 then (E.ERR_GYRO_WRITE, g, some v)
    else
      let rd := g.i2c.read g.address 6 false
      let g := { g with i2c := rd.2.2 }
      if rd.1 ≠ 0 then (E.ERR_GYRO_READ, g, some v)
      else
        let data := rd.2.1
        let xl := toU8 (data.getD 0 0)
        let xh := toU8 (data.getD 1 0)
        let yl := toU8 (data.getD 2 0)
        let yh := toU8 (data.getD 3 0)
        let zl := toU8 (data.getD 4 0)
        let zh := toU8 (data.getD 5 0)
        let x := Gyro.sample xl xh
        let y := Gyro.sample yl yh
        let z := Gyro.sample zl zh
        match g.range with
        | .r250DPS =>
          (E.SUCCESS, g, some ⟨Gyro.scale x 250, Gyro.scale y 250, Gyro.scale z 250⟩)
        | .r500DPS =>
          (E.SUCCESS, g, some ⟨Gyro.scale x 500, Gyro.scale y 500, Gyro.scale z 500⟩)
        | .r2000DPS =>
          (E.SUCCESS, g, some ⟨Gyro.scale x 2000, Gyro.scale y 2000, Gyro.scale z 2000⟩)
        | .other _ => (E.ERR_ARGUMENT, g, some v)

/-! ## altitude.cpp -/

/-- 32-bit signed sum. -/
def add32 (a b : Int) : Int := toI32 (a + b)

/-- 32-bit signed difference. -/
def sub32 (a b : Int) : Int := toI32 (a - b)

/-- 32-bit signed product. -/
def mul32 (a b : Int) : Int := toI32 (a * b)

/-- Left shift of a 32-bit signed value. -/
def shl32 (a : Int) (n : Nat) : Int := toI32 (a * 2 ^ n)

/-- Arithmetic right shift of a signed value: floor division by `2 ^ n`. -/
def sar (a : Int) (n : Nat) : Int := a / 2 ^ n

/-- Product of two `uint32_t` operands. -/
def mulU32 (a b : Int) : Int := toU32 (a * b)

/-- Left shift of a `uint32_t` operand. -/
def shlU32 (a : Int) (n : Nat) : Int := toU32 (a * 2 ^ n)

/-- Logical right shift of a `uint32_t` operand. -/
def shrU32 (a : Int) (n : Nat) : Int := toU32 a / 2 ^ n

/-- Bitwise OR of two `uint32_t` operands. -/
def orU32 (a b : Int) : Int := Int.ofNat (Nat.lor (toU32 a).toNat (toU32 b).toNat)

/-- Value of a plain `char` holding the byte `b`, promoted to `int`: plain `char` is
unsigned on the ARM targets of mbed and signed on some other targets. -/
def charVal (charSigned : Bool) (b : Int) : Int := if charSigned then toI8 b else toU8 b

/-- An `Altitude` object: the bus, the calibration constants (`ac1`, `ac2`, `ac3`, `b1`,
`b2`, `mb`, `mc`, `md` are `int16_t`, `ac4`, `ac5`, `ac6` are `uint16_t`), the stored
`b5` (a 32-bit integer), and what `altitude.h` and the compilation target fix: the
device `address`, the oversampling setting `OSS` and the signedness of plain `char`. -/
structure Altitude where
  i2c : I2C
  address : Nat
  OSS : Nat
  charSigned : Bool
  ac1 : Int
  ac2 : Int
  ac3 : Int
  ac4 : Int
  ac5 : Int
  ac6 : Int
  b1 : Int
  b2 : Int
  mb : Int
  mc : Int
  md : Int
  b5 : Int

/-- Model of `Altitude::read(uint8_t add, int16_t *data)` (altitude.cpp 44-54), which
uses nothing of the object but the bus and the address: return code, bus afterwards,
and the `int16_t` stored through `data` (`none` when nothing is stored). -/
def Altitude.read (E : ErrorCodes) (a : Altitude) (add : Int) : Int × I2C × Option Int :=
  let w := a.i2c.write a.address [toU8 add] true
  if w.1 ≠ 0 then (E.ERR_ALT_WRITE, w.2, none)
  else
    let rd := w.2.read a.address 2 false
    if rd.1 ≠ 0 then (E.ERR_ALT_READ, rd.2.2, none)
    else
      let buf0 := charVal a.charSigned (rd.2.1.getD 0 0)
      let buf1 := charVal a.charSigned (rd.2.1.getD 1 0)
      let data := toI16 (shl32 buf0 8)
      let data := toI16 (orInt data buf1)
      (E.SUCCESS, rd.2.2, some data)

/-- The object after a call `read(add, &field)`: the bus has moved on, and the field
has the stored value if one was stored. -/
def Altitude.stored (a : Altitude) (r : Int × I2C × Option Int)
    (set : Altitude → Int → Altitude) : Altitude :=
  match r.2.2 with
  | some d => set { a with i2c := r.2.1 } d
  | none => { a with i2c := r.2.1 }

/-- Model of `Altitude::readCalibration` (altitude.cpp 56-75): the `||` chain stops at
the first call whose return value is non-zero and returns that value.  The casts
`(int16_t *)&ac4` store the 16-bit pattern into a `uint16_t`. -/
def Altitude.readCalibration (E : ErrorCodes) (a : Altitude) : Int × Altitude :=
  let r := a.read E 0xAA
  let a := a.stored r (fun s d => { s with ac1 := d })
  if r.1 ≠ 0 then (r.1, a) else
  let r := a.read E 0xAC
  let a := a.stored r (fun s d => { s with ac2 := d })
  if r.1 ≠ 0 then (r.1, a) else
  let r := a.read E 0xAE
  let a := a.stored r (fun s d => { s with ac3 := d })
  if r.1 ≠ 0 then (r.1, a) else
  let r := a.read E 0xB0
  let a := a.stored r (fun s d => { s with ac4 := toU16 d })
  if r.1 ≠ 0 then (r.1, a) else
  let r := a.read E 0xB2
  let a := a.stored r (fun s d => { s with ac5 := toU16 d })
  if r.1 ≠ 0 then (r.1, a) else
  let r := a.read E 0xB4
  let a := a.stored r (fun s d => { s with ac6 := toU16 d })
  if r.1 ≠ 0 then (r.1, a) else
  let r := a.read E 0xB6
  let a := a.stored r (fun s d => { s with b1 := d })
  if r.1 ≠ 0 then (r.1, a) else
  let r := a.read E 0xB8
  let a := a.stored r (fun s d => { s with b2 := d })
  if r.1 ≠ 0 then (r.1, a) else
  let r := a.read E 0xBA
  let a := a.stored r (fun s d => { s with mb := d })
  if r.1 ≠ 0 then (r.1, a) else
  let r := a.read E 0xBC
  let a := a.stored r (fun s d => { s with mc := d })
  if r.1 ≠ 0 then (r.1, a) else
  let r := a.read E 0xBE
  let a := a.stored r (fun s d => { s with md := d })
  if r.1 ≠ 0 then (r.1, a) else
  (E.SUCCESS, a)

/-- Model of `Altitude::init` (altitude.cpp 40-42). -/
def Altitude.init (E : ErrorCodes) (a : Altitude) : Int × Altitude :=
  a.readCalibration E

/-- Model of `Altitude::readUP` (altitude.cpp 92-111): return code, bus afterwards and
the `uint32_t` stored through `data`.  The delay is left out.  The device knows the
settings `OSS` from 0 to 3; the shift count `8 - OSS` is taken as zero beyond 8, where
the C expression has no defined value. -/
def Altitude.readUP (E : ErrorCodes) (a : Altitude) : Int × I2C × Option Int :=
  let w := a.i2c.write a.address [0xF4, toU8 (0x34 + shl32 a.OSS 6)] false
  if w.1 ≠ 0 then (E.ERR_ALT_WRITE, w.2, none)
  else
    let w2 := w.2.write a.address [0xF6] false
    if w2.1 ≠ 0 then (E.ERR_ALT_WRITE, w2.2, none)
    else
      let rd := w2.2.read a.address 3 false
      if rd.1 ≠ 0 then (E.ERR_ALT_READ, rd.2.2, none)
      else
        let buf0 := charVal a.charSigned (rd.2.1.getD 0 0)
        let buf1 := charVal a.charSigned (rd.2.1.getD 1 0)
        let buf2 := charVal a.charSigned (rd.2.1.getD 2 0)
        let up := shrU32 (orU32 (orU32 (shlU32 (toU32 buf0) 16) (shlU32 (toU32 buf1) 8))
          (toU32 buf2)) (8 - a.OSS)
        (E.SUCCESS, rd.2.2, some up)

/-- The arithmetic of `Altitude::readPressure` (altitude.cpp 135-155) on the raw
reading `up`: the `int32_t` result, or `none` when the divisor `b4` is zero.  In
line 136, `b2 * (b6 * b6) >> 12` parses as `(b2 * (b6 * b6)) >> 12`, since `*` binds
tighter than `>>`. -/
def Altitude.pressureOf (a : Altitude) (up : Int) : Option Int :=
  let b6 := sub32 a.b5 4000
  let x1 := sar (sar (mul32 a.b2 (mul32 b6 b6)) 12) 11
  let x2 := sar (mul32 a.ac2 b6) 11
  let x3 := add32 x1 x2
  let b3 := sar (add32 (shl32 (add32 (mul32 a.ac1 4) x3) a.OSS) 2) 2
  let x1 := sar (mul32 a.ac3 b6) 13
  let x2 := sar (mul32 a.b1 (sar (mul32 b6 b6) 12)) 16
  let x3 := sar (add32 (add32 x1 x2) 2) 2
  let b4 := shrU32 (mulU32 a.ac4 (toU32 (add32 x3 32768))) 15
  let b7 := mulU32 (toU32 (up - b3)) (toU32 (sar 50000 a.OSS))
  if b4 = 0 then none
  else
    let p :=
      if b7 < 0x80000000 then toI32 (Int.tdiv (shlU32 b7 1) b4)
      else toI32 (shlU32 (Int.tdiv b7 b4) 1)
    let x1 := mul32 (sar p 8) (sar p 8)
    let x1 := sar (mul32 x1 3038) 16
    let x2 := sar (mul32 (-7357) p) 16
    let p := add32 p (sar (add32 (add32 x1 x2) 3791) 4)
    some p

/-- Model of `Altitude::readPressure` (altitude.cpp 128-159): `none` for undefined
behaviour (division by zero, or use of `up` when `readUP` stored nothing and still
returned zero), otherwise the return code, the object afterwards and the
`int32_t` stored through `data`. -/
def Altitude.readPressure (E : ErrorCodes) (a : Altitude) :
    Option (Int × Altitude × Option Int) :=
  let r := a.readUP E
  let a := { a with i2c := r.2.1 }
  if r.1 ≠ 0 then some (r.1, a, none)
  else
    match r.2.2 with
    | none => none
    | some up =>
      match a.pressureOf up with
      | none => none
      | some p => some (E.SUCCESS, a, some p)

/-- The compensation formula of the BMP085 data sheet, in 32-bit C arithmetic, with
the first term grouped as `X1 = (b2 * ((b6 * b6) >> 12)) >> 11`; every other step is
as in `pressureOf`. -/
def Altitude.pressureRef (a : Altitude) (up : Int) : Option Int :=
  let b6 := sub32 a.b5 4000
  let x1 := sar (mul32 a.b2 (sar (mul32 b6 b6) 12)) 11
  let x2 := sar (mul32 a.ac2 b6) 11
  let x3 := add32 x1 x2
  let b3 := sar (add32 (shl32 (add32 (mul32 a.ac1 4) x3) a.OSS) 2) 2
  let x1 := sar (mul32 a.ac3 b6) 13
  let x2 := sar (mul32 a.b1 (sar (mul32 b6 b6) 12)) 16
  let x3 := sar (add32 (add32 x1 x2) 2) 2
  let b4 := shrU32 (mulU32 a.ac4 (toU32 (add32 x3 32768))) 15
  let b7 := mulU32 (toU32 (up - b3)) (toU32 (sar 50000 a.OSS))
  if b4 = 0 then none
  else
    let p :=
      if b7 < 0x80000000 then toI32 (Int.tdiv (shlU32 b7 1) b4)
      else toI32 (shlU32 (Int.tdiv b7 b4) 1)
    let x1 := mul32 (sar p 8) (sar p 8)
    let x1 := sar (mul32 x1 3038) 16
    let x2 := sar (mul32 (-7357) p) 16
    let p := add32 p (sar (add32 (add32 x1 x2) 3791) 4)
    some p

/-- Model of `Altitude::calculateAltitude` (altitude.cpp 168-173).  The arithmetic is
that of a field `K` standing for the floating-point type and `pow` is the function of
`<math.h>`; both are parameters, so that the routine can be read over the real numbers
with the real power. -/
def Altitude.calculateAltitude {K : Type} [Field K] (pow : K → K → K) (pressure : Int) : K :=
  let alt : K := (pressure : K) / 100.0 / 1013.25
  let alt : K := pow alt (1.0 / 5.255)
  let alt : K := 1 - alt
  44330 * alt

/-! ## attitude.h

Only the declaration of `Attitude` is among the sources.  `Attitude::calculate`, the
`Kalman` filter and the accelerometer driver `Acc` are modelled from the specification
(sections 3, 4 and 6). -/

/-- Modelled from the spec: the accelerometer collaborator `Acc` of `sensors.h`, whose
code is missing (section 6: `read() -> Result<[f32;3], SensorError>`).  The outcome of
the `n`-th call is a return code, zero on success, and the sample delivered. -/
structure Acc where
  outcome : Nat → Int × Vec3
  calls : Nat

/-- Modelled from the spec: `Acc::read`, missing from the sources: return code, object
afterwards and the caller's array afterwards, written only on success. -/
def Acc.read (a : Acc) (v : Vec3) : Int × Acc × Vec3 :=
  let o := a.outcome a.calls
  (o.1, { a with calls := a.calls + 1 }, if o.1 = 0 then o.2 else v)

/-- Modelled from the spec: the `FilterState` of section 3 behind the class `Kalman`
of `kalman.h`, missing from the sources. -/
structure Kalman where
  angle : ℚ
  bias : ℚ
  P00 : ℚ
  P01 : ℚ
  P10 : ℚ
  P11 : ℚ
  Q_angle : ℚ
  Q_bias : ℚ
  R_measure : ℚ
  deriving DecidableEq, Repr

/-- Modelled from the spec: `seed(initialAngle)` of section 4.1, missing from the
sources: the angle is set, the bias reset to zero and `P` to a diagonal of the
configured constant `p0`. -/
def Kalman.seed (k : Kalman) (p0 : ℚ) (initialAngle : ℚ) : Kalman :=
  { k with angle := initialAngle, bias := 0, P00 := p0, P01 := 0, P10 := 0, P11 := p0 }

/-- Modelled from the spec: `update(measuredAngle, rate, dt)` of section 4.1, missing
from the sources: `none` is the `InvalidInput` failure for `dt <= 0`; otherwise the
steps predict, innovation, innovation covariance, gain, correct.  In the predict step
the off-diagonal entries of `P` decrease by `dt * P11`. -/
def Kalman.update (k : Kalman) (measuredAngle rate dt : ℚ) : Option Kalman :=
  if dt ≤ 0 then none
  else
    let angle := k.angle + dt * (rate - k.bias)
    let P00 := k.P00 + dt * (k.Q_angle - k.P01 - k.P10)
    let P01 := k.P01 - dt * k.P11
    let P10 := k.P10 - dt * k.P11
    let P11 := k.P11 + dt * k.Q_bias
    let y := measuredAngle - angle
    let S := P00 + k.R_measure
    let K0 := P00 / S
    let K1 := P10 / S
    some { k with
      angle := angle + K0 * y
      bias := k.bias + K1 * y
      P00 := P00 - K0 * P00
      P01 := P01 - K0 * P01
      P10 := P10 - K1 * P00
      P11 := P11 - K1 * P01 }

/-- Modelled from the spec: what section 4.2 and section 5 leave to the
implementation of `Attitude::calculate`, missing from the sources: the two-argument
arctangent in degrees, the square root, the floor `epsilon` of `dt`, the seed
variance and the code returned for an `InvalidInput` failure of a filter. -/
structure AttitudeEnv where
  atan2Deg : ℚ → ℚ → ℚ
  sqrt : ℚ → ℚ
  epsilon : ℚ
  seedVariance : ℚ
  ERR_INVALID_INPUT : Int

/-- The class `Attitude` of attitude.h 7-18, with the `lastUpdateTimestamp` of the
specification (`none` in the state `Uninitialized`).  The collaborators held by
pointer are part of the state. -/
structure Attitude where
  roll : ℚ
  pitch : ℚ
  yaw : ℚ
  pitchFilter : Kalman
  rollFilter : Kalman
  gyro : Gyro
  acc : Acc
  lastUpdateTimestamp : Option ℚ

/-- Modelled from the spec: `Attitude::calculate` (section 4.2, steps 1 to 6), whose
body is missing from the sources, at clock reading `now`.  A failed read of either
collaborator ends the tick with the collaborator's code and leaves
the attitude as it was; only the collaborators have moved on. -/
def Attitude.calculate (E : ErrorCodes) (M : AttitudeEnv) (now : ℚ) (t : Attitude) :
    Int × Attitude :=
  let gr := t.gyro.read E (some ⟨0, 0, 0⟩)
  let t := { t with gyro := gr.2.1 }
  if gr.1 ≠ 0 then (gr.1, t)
  else
    let rate := gr.2.2.getD ⟨0, 0, 0⟩
    let ar := t.acc.read ⟨0, 0, 0⟩
    let t := { t with acc := ar.2.1 }
    if ar.1 ≠ 0 then (ar.1, t)
    else
      let accel := ar.2.2
      let pitchAcc := M.atan2Deg accel.v1 (M.sqrt (accel.v0 * accel.v0 + accel.v2 * accel.v2))
      let rollAcc := M.atan2Deg (-accel.v0) accel.v2
      match t.lastUpdateTimestamp with
      | none =>
        let pf := t.pitchFilter.seed M.seedVariance pitchAcc
        let rf := t.rollFilter.seed M.seedVariance rollAcc
        (0, { t with pitchFilter := pf, rollFilter := rf, pitch := pf.angle,
                     roll := rf.angle, lastUpdateTimestamp := some now })
      | some last =>
        let dt := max (now - last) M.epsilon
        match t.pitchFilter.update pitchAcc rate.v1 dt, t.rollFilter.update rollAcc rate.v0 dt with
        | some pf, some rf =>
          (0, { t with pitchFilter := pf, rollFilter := rf, pitch := pf.angle,
                       roll := rf.angle, yaw := t.yaw + rate.v2 * dt,
                       lastUpdateTimestamp := some now })
        | _, _ => (M.ERR_INVALID_INPUT, t)

/-! ## Definitions used to state the properties -/

/-- Successive calls of `Gyro::read`, one per array of the list: the return code and
the array afterwards of every call, and the object after the last one. -/
def Gyro.readMany (E : ErrorCodes) (g : Gyro) :
    List (Option Vec3) → List (Int × Option Vec3) × Gyro
  | [] => ([], g)
  | v :: vs =>
    let r := g.read E v
    let rest := Gyro.readMany E r.2.1 vs
    ((r.1, r.2.2) :: rest.1, rest.2)

/-- The bus operations of one complete call `read(add, ...)` of `Altitude`. -/
def regOps (address : Nat) (add : Int) : List BusOp :=
  [BusOp.write address [toU8 add] true, BusOp.read address 2 false]

/-- The bus operations of complete register reads at the given addresses, in order. -/
def calOps (address : Nat) : List Int → List BusOp
  | [] => []
  | add :: rest => regOps address add ++ calOps address rest

/-- Status the bus gives to the address write of the `j`-th register read of a
sequence, the `j` reads before it having been completed. -/
def Altitude.writeStatusAt (a : Altitude) (adds : List Int) (j : Nat) : Int :=
  a.i2c.status (a.i2c.log ++ calOps a.address (adds.take j))
    (BusOp.write a.address [toU8 (adds.getD j 0)] true)

/-- Status the bus gives to the 2-byte read of the `j`-th register read of a sequence,
after its address write. -/
def Altitude.readStatusAt (a : Altitude) (adds : List Int) (j : Nat) : Int :=
  a.i2c.status (a.i2c.log ++ calOps a.address (adds.take j) ++
      [BusOp.write a.address [toU8 (adds.getD j 0)] true])
    (BusOp.read a.address 2 false)

/-- The 16-bit word the `j`-th register read of a sequence assembles from the two
bytes the bus delivers (altitude.cpp 51-52). -/
def Altitude.wordAt (a : Altitude) (adds : List Int) (j : Nat) : Int :=
  let lg := a.i2c.log ++ calOps a.address (adds.take j) ++
    [BusOp.write a.address [toU8 (adds.getD j 0)] true]
  let buf0 := charVal a.charSigned (toU8 (a.i2c.rx lg 0))
  let buf1 := charVal a.charSigned (toU8 (a.i2c.rx lg 1))
  toI16 (orInt (toI16 (shl32 buf0 8)) buf1)

/-- The register addresses of `readCalibration`, in the order of the calls. -/
def calAddrs : List Int := [0xAA, 0xAC, 0xAE, 0xB0, 0xB2, 0xB4, 0xB6, 0xB8, 0xBA, 0xBC, 0xBE]

/-- The calibration constants of an object, in the order `ac1, ac2, ac3, ac4, ac5, ac6,
b1, b2, mb, mc, md`. -/
def Altitude.calConst (a : Altitude) : List Int :=
  [a.ac1, a.ac2, a.ac3, a.ac4, a.ac5, a.ac6, a.b1, a.b2, a.mb, a.mc, a.md]

/-- What the `j`-th constant holds after the word `d` is stored through the pointer
`readCalibration` passes: `ac4`, `ac5`, `ac6` are `uint16_t` objects written through an
`int16_t *`. -/
def calConv (j : Nat) (d : Int) : Int := if 3 ≤ j ∧ j ≤ 5 then toU16 d else d

/-- A store through the pointer argument of `Altitude::read`. -/
abbrev Setter := Altitude → Int → Altitude

/-- The arguments of the eleven calls of `read` in `readCalibration` (altitude.cpp
59-69), in order. -/
def calTable : List (Int × Setter) :=
  [(0xAA, fun s d => { s with ac1 := d }),
   (0xAC, fun s d => { s with ac2 := d }),
   (0xAE, fun s d => { s with ac3 := d }),
   (0xB0, fun s d => { s with ac4 := toU16 d }),
   (0xB2, fun s d => { s with ac5 := toU16 d }),
   (0xB4, fun s d => { s with ac6 := toU16 d }),
   (0xB6, fun s d => { s with b1 := d }),
   (0xB8, fun s d => { s with b2 := d }),
   (0xBA, fun s d => { s with mb := d }),
   (0xBC, fun s d => { s with mc := d }),
   (0xBE, fun s d => { s with md := d })]

/-- A chain `read(add1, p1) || read(add2, p2) || ...` followed by `return SUCCESS`, for
an arbitrary list of arguments. -/
def Altitude.readRegs (E : ErrorCodes) : List (Int × Setter) → Altitude → Int × Altitude
  | [], a => (E.SUCCESS, a)
  | (add, set) :: rest, a =>
    let r := a.read E add
    let a := a.stored r set
    if r.1 ≠ 0 then (r.1, a) else Altitude.readRegs E rest a

/-! ## Example objects -/

/-- An error-code table that follows the convention of `attitude.h`: `SUCCESS` is zero
and the five error codes are the next integers. -/
def exampleCodes : ErrorCodes := ⟨0, 1, 2, 3, 4, 5⟩

/-- A bus that acknowledges every operation and delivers the given bytes on every
read. -/
def steadyBus (bytes : List Int) : I2C := ⟨fun _ _ => 0, fun _ k => bytes.getD k 0, []⟩

/-- A bus that acknowledges the first `n` operations and none after them. -/
def failingBus (n : Nat) (bytes : List Int) : I2C :=
  ⟨fun lg _ => if lg.length < n then 0 else 1, fun _ k => bytes.getD k 0, []⟩

/-- A gyroscope on the given bus with the register map of the L3GD20. -/
def exampleGyro (bus : I2C) (r : Range) : Gyro := ⟨bus, r, 0xD6, 0x20, 0x23, 0x28⟩

/-- A barometer on the given bus with the calibration constants of the worked example
of the BMP085 data sheet, except for the given `b2` and `b5`. -/
def exampleAltitude (bus : I2C) (b2 b5 : Int) : Altitude :=
  { i2c := bus, address := 0xEE, OSS := 0, charSigned := false,
    ac1 := 408, ac2 := -72, ac3 := -14383, ac4 := 32741, ac5 := 32757, ac6 := 23153,
    b1 := 6190, b2 := b2, mb := -32768, mc := -8711, md := 2868, b5 := b5 }

/-- An accelerometer whose call number `n` (counted from zero) fails with code `code`
and whose other calls deliver the sample of a body at rest. -/
def failingAcc (n : Nat) (code : Int) (calls : Nat) : Acc :=
  ⟨fun m => if m = n then (code, ⟨0, 0, 0⟩) else (0, ⟨0, 0, 1⟩), calls⟩

/-- A filter with the noise parameters of the end-to-end scenario of the
specification. -/
def exampleKalman (angle : ℚ) : Kalman :=
  { angle := angle, bias := 0, P00 := 1, P01 := 0, P10 := 0, P11 := 1,
    Q_angle := 1 / 1000, Q_bias := 3 / 1000, R_measure := 3 / 100 }

/-- An environment whose arctangent and square root are placeholders; the failure
paths of `calculate` do not call them. -/
def exampleEnv : AttitudeEnv :=
  { atan2Deg := fun y _ => y, sqrt := fun x => x, epsilon := 1 / 1000, seedVariance := 1,
    ERR_INVALID_INPUT := 6 }

/-- An estimator after two ticks, holding some attitude, whose accelerometer fails on
its third call. -/
def exampleAttitude : Attitude :=
  { roll := 3 / 2, pitch := -2, yaw := 10,
    pitchFilter := exampleKalman (-2), rollFilter := exampleKalman (3 / 2),
    gyro := exampleGyro (steadyBus [0x34, 0x12, 0xFF, 0xFF, 0x00, 0x80]) Range.r250DPS,
    acc := failingAcc 2 7 2, lastUpdateTimestamp := some 1 }

/-! ## Properties of `Gyro::init` and `Gyro::read` -/

/-- C1: for every range that is none of the three enumerators, `Gyro::init` returns
`ERR_ARGUMENT` and leaves the bus untouched: no operation is added to its log, so
neither control register is written. -/
theorem gyro_init_unrecognized (E : ErrorCodes) (g : Gyro) (r : Range)
    (hr : r ≠ Range.r250DPS ∧ r ≠ Range.r500DPS ∧ r ≠ Range.r2000DPS) :
    (g.init E r).1 = E.ERR_ARGUMENT ∧ (g.init E r).2.i2c = g.i2c ∧
      (g.init E r).2.i2c.log = g.i2c.log := by
  cases r with
  | other raw => simp [Gyro.init]
  | r250DPS => exact absurd rfl hr.1
  | r500DPS => exact absurd rfl hr.2.1
  | r2000DPS => exact absurd rfl hr.2.2

/-- C2: `Gyro::read` reports the specific failure kind, for every bus and every configured
range.  With a NULL pointer it returns `ERR_ARGUMENT` and the object, bus included, is
as before.  With a non-NULL pointer: if the register-address write fails it returns
`ERR_GYRO_WRITE` and that write is the only operation added to the bus log (no read
is attempted); if the write succeeds and the 6-byte read fails it returns
`ERR_GYRO_READ`.  Provided the three error codes differ from `SUCCESS`, it returns
`SUCCESS` if and only if the pointer is non-NULL, both bus operations succeed and the
stored range is one of the three recognized ones. -/
theorem gyro_read_codes (E : ErrorCodes) (g : Gyro) (v : Option Vec3) :
    let w := g.i2c.write g.address [toU8 (orInt g.registerOut 0x80)] true
    let rd := w.2.read g.address 6 false
    (v = none → g.read E v = (E.ERR_ARGUMENT, g, none)) ∧
    (v ≠ none → w.1 ≠ 0 →
      (g.read E v).1 = E.ERR_GYRO_WRITE ∧ (g.read E v).2.1.i2c = w.2 ∧
        (g.read E v).2.1.i2c.log =
          g.i2c.log ++ [BusOp.write g.address [toU8 (orInt g.registerOut 0x80)] true]) ∧
    (v ≠ none → w.1 = 0 → rd.1 ≠ 0 →
      (g.read E v).1 = E.ERR_GYRO_READ ∧ (g.read E v).2.1.i2c = rd.2.2) ∧
    (E.ERR_ARGUMENT ≠ E.SUCCESS ∧ E.ERR_GYRO_WRITE ≠ E.SUCCESS ∧
        E.ERR_GYRO_READ ≠ E.SUCCESS →
      ((g.read E v).1 = E.SUCCESS ↔
        (v ≠ none ∧ w.1 = 0 ∧ rd.1 = 0 ∧ g.range.recognized = true))) := by
  intro w rd
  refine ⟨?_, ?_, ?_, ?_⟩
  · rintro rfl
    rfl
  · intro hv hw
    cases v with
    | none => exact absurd rfl hv
    | some buf =>
      have hw' : (g.i2c.write g.address [toU8 (orInt g.registerOut 0x80)] true).1 ≠ 0 := hw
      simp [Gyro.read, hw', w]
      simp [I2C.write]
  · intro hv hw hrd
    cases v with
    | none => exact absurd rfl hv
    | some buf =>
      have hw' : (g.i2c.write g.address [toU8 (orInt g.registerOut 0x80)] true).1 = 0 := hw
      have hrd' : ((g.i2c.write g.address [toU8 (orInt g.registerOut 0x80)] true).2.read
        g.address 6 false).1 ≠ 0 := hrd
      simp [Gyro.read, hw', hrd', rd, w]
  · rintro ⟨ha, hgw, hgr⟩
    cases v with
    | none =>
      simp [Gyro.read]
      exact ha
    | some buf =>
      by_cases hw : (g.i2c.write g.address [toU8 (orInt g.registerOut 0x80)] true).1 = 0
      · by_cases hrd : ((g.i2c.write g.address [toU8 (orInt g.registerOut 0x80)] true).2.read
          g.address 6 false).1 = 0
        · cases hr : g.range <;> simp [Gyro.read, hw, hrd, hr, w, rd, Range.recognized, ha]
        · simp [Gyro.read, hw, hrd, w, rd, hgr]
      · simp [Gyro.read, hw, w, hgw]

/-- `Gyro::read` never changes the configured range. -/
theorem gyro_read_range (E : ErrorCodes) (g : Gyro) (v : Option Vec3) :
    (g.read E v).2.1.range = g.range := by
  cases v with
  | none => rfl
  | some buf =>
    unfold Gyro.read
    simp only
    split_ifs
    · rfl
    · rfl
    · split <;> rfl

/-- C9: whenever `Gyro::read` returns anything other than `SUCCESS` (NULL argument,
failed address write, failed data read, or an unrecognized stored range), none of
`v[0]`, `v[1]`, `v[2]` has been written: the caller's array holds exactly what it held
before the call, for every bus and every stored range. -/
theorem gyro_read_frame (E : ErrorCodes) (g : Gyro) (v : Option Vec3)
    (h : (g.read E v).1 ≠ E.SUCCESS) : (g.read E v).2.2 = v := by
  cases v with
  | none => rfl
  | some buf =>
    unfold Gyro.read at h ⊢
    simp only at h ⊢
    split_ifs at h ⊢ with hw hrd
    · rfl
    · rfl
    · split at h <;> first | rfl | exact absurd rfl h

/-- With an unrecognized stored range, `Gyro::read` never returns `SUCCESS`, leaves the
caller's array alone, and returns `ERR_ARGUMENT` when both bus operations succeed. -/
theorem gyro_read_unrecognized (E : ErrorCodes)
    (hE : E.ERR_ARGUMENT ≠ E.SUCCESS ∧ E.ERR_GYRO_WRITE ≠ E.SUCCESS ∧
      E.ERR_GYRO_READ ≠ E.SUCCESS) (g : Gyro)
    (hr : g.range.recognized = false) (v : Option Vec3) :
    (g.read E v).1 ≠ E.SUCCESS ∧ (g.read E v).2.2 = v ∧
      ((g.i2c.write g.address [toU8 (orInt g.registerOut 0x80)] true).1 = 0 →
       ((g.i2c.write g.address [toU8 (orInt g.registerOut 0x80)] true).2.read
          g.address 6 false).1 = 0 →
       (g.read E v).1 = E.ERR_ARGUMENT) := by
  obtain ⟨ha, hgw, hgr⟩ := hE
  have hboth : (g.read E v).1 ≠ E.SUCCESS ∧ (g.read E v).2.2 = v := by
    cases v with
    | none => exact ⟨by simp [Gyro.read, ha], rfl⟩
    | some buf =>
      cases hg : g.range with
      | other raw =>
        unfold Gyro.read
        simp only [hg]
        split_ifs
        · exact ⟨hgw, rfl⟩
        · exact ⟨hgr, rfl⟩
        · exact ⟨ha, rfl⟩
      | r250DPS => rw [hg] at hr; exact absurd hr (by decide)
      | r500DPS => rw [hg] at hr; exact absurd hr (by decide)
      | r2000DPS => rw [hg] at hr; exact absurd hr (by decide)
  refine ⟨hboth.1, hboth.2, ?_⟩
  intro hw hrd
  cases v with
  | none => rfl
  | some buf =>
    cases hg : g.range with
    | other raw => simp [Gyro.read, hw, hrd, hg]
    | r250DPS => rw [hg] at hr; exact absurd hr (by decide)
    | r500DPS => rw [hg] at hr; exact absurd hr (by decide)
    | r2000DPS => rw [hg] at hr; exact absurd hr (by decide)

/-- With an unrecognized stored range, every call of a sequence of calls of `Gyro::read`
fails and leaves its array alone, and the range is still the same afterwards. -/
theorem gyro_readMany_unrecognized (E : ErrorCodes)
    (hE : E.ERR_ARGUMENT ≠ E.SUCCESS ∧ E.ERR_GYRO_WRITE ≠ E.SUCCESS ∧
      E.ERR_GYRO_READ ≠ E.SUCCESS) (vs : List (Option Vec3)) :
    ∀ g : Gyro, g.range.recognized = false →
      (∀ res ∈ (Gyro.readMany E g vs).1, res.1 ≠ E.SUCCESS) ∧
      (Gyro.readMany E g vs).1.map Prod.snd = vs ∧
      (Gyro.readMany E g vs).2.range = g.range := by
  induction vs with
  | nil => intro g _; simp [Gyro.readMany]
  | cons v vs ih =>
    intro g hg
    have hstep := gyro_read_unrecognized E hE g hg v
    have hrange := gyro_read_range E g v
    have hg' : (g.read E v).2.1.range.recognized = false := by rw [hrange]; exact hg
    obtain ⟨h1, h2, h3⟩ := ih (g.read E v).2.1 hg'
    refine ⟨?_, ?_, ?_⟩
    · intro res hres
      simp only [Gyro.readMany, List.mem_cons] at hres
      rcases hres with rfl | hres
      · exact hstep.1
      · exact h1 res hres
    · simp only [Gyro.readMany, List.map_cons, h2, hstep.2.1]
    · simp only [Gyro.readMany, h3, hrange]

/-- C10: `Gyro::init` stores its argument before validating it, so a rejected `init` is
not atomic.  Provided the three error codes differ from `SUCCESS`: for every gyro `g`
and every unrecognized range `r`, `init(r)` returns `ERR_ARGUMENT` and the stored range
is `r` afterwards; every call of every later sequence of calls of `read` returns a code
other than `SUCCESS` and leaves its array as it was, and the range is still `r` after
the sequence; and at every object whose stored range is `r` a `read` returns
`ERR_ARGUMENT` when both of its bus operations succeed, converts nothing and keeps the
range `r`.  So no sample is converted with the range configured before the rejected
call until `init` is called again. -/
theorem gyro_init_rejected_not_atomic (E : ErrorCodes)
    (hE : E.ERR_ARGUMENT ≠ E.SUCCESS ∧ E.ERR_GYRO_WRITE ≠ E.SUCCESS ∧
      E.ERR_GYRO_READ ≠ E.SUCCESS) (g : Gyro)
    (r : Range) (hr : r.recognized = false) :
    (g.init E r).1 = E.ERR_ARGUMENT ∧ (g.init E r).2.range = r ∧
    (∀ vs : List (Option Vec3),
      (∀ res ∈ (Gyro.readMany E (g.init E r).2 vs).1, res.1 ≠ E.SUCCESS) ∧
      (Gyro.readMany E (g.init E r).2 vs).1.map Prod.snd = vs ∧
      (Gyro.readMany E (g.init E r).2 vs).2.range = r) ∧
    (∀ g2 : Gyro, g2.range = r → ∀ v : Option Vec3,
      (g2.read E v).1 ≠ E.SUCCESS ∧ (g2.read E v).2.2 = v ∧ (g2.read E v).2.1.range = r ∧
      ((g2.i2c.write g2.address [toU8 (orInt g2.registerOut 0x80)] true).1 = 0 →
       ((g2.i2c.write g2.address [toU8 (orInt g2.registerOut 0x80)] true).2.read
          g2.address 6 false).1 = 0 →
       (g2.read E v).1 = E.ERR_ARGUMENT)) := by
  have hinit : (g.init E r).1 = E.ERR_ARGUMENT ∧ (g.init E r).2.range = r := by
    cases r with
    | other raw => simp [Gyro.init]
    | r250DPS => exact absurd hr (by decide)
    | r500DPS => exact absurd hr (by decide)
    | r2000DPS => exact absurd hr (by decide)
  refine ⟨hinit.1, hinit.2, ?_, ?_⟩
  · intro vs
    have hg : (g.init E r).2.range.recognized = false := by rw [hinit.2]; exact hr
    have := gyro_readMany_unrecognized E hE vs (g.init E r).2 hg
    rw [hinit.2] at this
    exact this
  · intro g2 hg2 v
    have hg : g2.range.recognized = false := by rw [hg2]; exact hr
    have h := gyro_read_unrecognized E hE g2 hg v
    exact ⟨h.1, h.2.1, by rw [gyro_read_range, hg2], h.2.2⟩

/-- Rounding an integer to the nearest integer gives it back. -/
theorem roundHalfEven_intCast (n : Int) : roundHalfEven (n : ℚ) = n := by
  simp [roundHalfEven]

/-- A multiple of `2 ^ u` keeps its value when it is measured in units of `2 ^ u`, rounded
to an integer and scaled back. -/
theorem roundHalfEven_scaled (k u j : Int) (hu : u ≤ j) :
    (roundHalfEven ((k : ℚ) * (2 : ℚ) ^ j / (2 : ℚ) ^ u) : ℚ) * (2 : ℚ) ^ u =
      (k : ℚ) * (2 : ℚ) ^ j := by
  obtain ⟨d, rfl⟩ : ∃ d : ℕ, j = u + d := ⟨(j - u).toNat, by omega⟩
  have hup : (2 : ℚ) ^ u ≠ 0 := (zpow_pos (by norm_num) u).ne'
  have hscaled : (k : ℚ) * (2 : ℚ) ^ (u + (d : Int)) / (2 : ℚ) ^ u = ((k * 2 ^ d : Int) : ℚ) := by
    rw [zpow_add₀ (by norm_num), zpow_natCast]
    field_simp
    ring
  rw [hscaled, roundHalfEven_intCast, zpow_add₀ (by norm_num), zpow_natCast]
  push_cast
  ring

/-- Every number `k * 2 ^ j` with `|k| < 2 ^ 24` and `j ≥ -149` is a binary32 value: the
rounding leaves it as it is. -/
theorem roundF32_exact (k j : Int) (hk : |k| < 2 ^ 24) (hj : -149 ≤ j) :
    roundF32 ((k : ℚ) * (2 : ℚ) ^ j) = (k : ℚ) * (2 : ℚ) ^ j := by
  by_cases hk0 : k = 0
  · subst hk0
    simp [roundF32, roundHalfEven]
  have h2 : (0 : ℚ) < (2 : ℚ) ^ j := zpow_pos (by norm_num) j
  have hqpos : 0 < |(k : ℚ) * (2 : ℚ) ^ j| := by
    rw [abs_mul, abs_of_pos h2]
    have : (0 : ℚ) < |(k : ℚ)| := abs_pos.mpr (by exact_mod_cast hk0)
    positivity
  have hlt : |(k : ℚ) * (2 : ℚ) ^ j| < ((2 : ℕ) : ℚ) ^ (24 + j) := by
    rw [abs_mul, abs_of_pos h2, zpow_add₀ (by norm_num)]
    have hk' : |(k : ℚ)| < 2 ^ (24 : ℕ) := by exact_mod_cast hk
    have h24 : (((2 : ℕ) : ℚ)) ^ (24 : Int) = 2 ^ (24 : ℕ) := by norm_num
    rw [h24]
    have : |(k : ℚ)| * (2 : ℚ) ^ j < 2 ^ (24 : ℕ) * (2 : ℚ) ^ j :=
      mul_lt_mul_of_pos_right hk' h2
    simpa using this
  have hlog : Int.log 2 |(k : ℚ) * (2 : ℚ) ^ j| < 24 + j :=
    (Int.lt_zpow_iff_log_lt (by norm_num) hqpos).mp hlt
  have hu : ulpExp ((k : ℚ) * (2 : ℚ) ^ j) ≤ j := by
    unfold ulpExp
    exact max_le (by omega) hj
  unfold roundF32
  exact roundHalfEven_scaled k _ j hu

/-- Integers below `2 ^ 24` in absolute value convert to `float` exactly. -/
theorem floatOfInt_exact (x : Int) (hx : |x| < 2 ^ 24) : floatOfInt x = x := by
  have := roundF32_exact x 0 hx (by norm_num)
  simpa [floatOfInt] using this

/-- For a 16-bit sample and each of the three ranges, the float expression
`((float)x) * R / 0x8000` is computed without any rounding error. -/
theorem gyro_scale_exact (s R : Int) (hs : -32768 ≤ s ∧ s ≤ 32767)
    (hR : R = 250 ∨ R = 500 ∨ R = 2000) :
    Gyro.scale s R = (s : ℚ) * R / 32768 := by
  have hsx : floatOfInt s = s := floatOfInt_exact s (by rw [abs_lt]; omega)
  have hRx : floatOfInt R = R := floatOfInt_exact R (by rw [abs_lt]; omega)
  have h8 : floatOfInt 0x8000 = 32768 := by
    have := floatOfInt_exact 32768 (by norm_num)
    simpa using this
  -- the product: `s * R = k * 2 ^ e` with `|k| < 2 ^ 24`
  obtain ⟨k, e, hk, he, hprod⟩ : ∃ k e : Int, |k| < 2 ^ 24 ∧ 0 ≤ e ∧
      (s : ℚ) * R = (k : ℚ) * (2 : ℚ) ^ e := by
    rcases hR with rfl | rfl | rfl
    · exact ⟨s * 250, 0, by rw [abs_lt]; omega, le_refl _, by push_cast; simp⟩
    · exact ⟨s * 500, 0, by rw [abs_lt]; omega, le_refl _, by push_cast; simp⟩
    · refine ⟨s * 125, 4, by rw [abs_lt]; omega, by norm_num, ?_⟩
      push_cast
      norm_num
      ring
  have hmul : fmul (s : ℚ) (R : ℚ) = (s : ℚ) * R := by
    unfold fmul
    rw [hprod]
    exact roundF32_exact k e hk (by omega)
  have hquot : (s : ℚ) * R / 32768 = (k : ℚ) * (2 : ℚ) ^ (e - 15) := by
    rw [hprod, zpow_sub₀ (by norm_num)]
    norm_num
    ring
  unfold Gyro.scale
  rw [hsx, hRx, h8, hmul]
  unfold fdiv
  rw [hquot]
  exact roundF32_exact k (e - 15) hk (by omega)

/-- OR-ing a byte into a 16-bit value whose low byte is zero adds the byte. -/
theorem orInt_low_byte (x lo : Int) (hx : -32768 ≤ x ∧ x ≤ 32767) (hx8 : x % 256 = 0)
    (hlo : 0 ≤ lo ∧ lo < 256) : orInt x lo = x + lo := by
  obtain ⟨c, hc⟩ : ∃ c : Nat, (toU32 x).toNat = 2 ^ 8 * c :=
    ⟨(toU32 x).toNat / 256, by unfold toU32; omega⟩
  have hn : (toU32 lo).toNat < 2 ^ 8 := by
    unfold toU32; omega
  have hor : Nat.lor (toU32 x).toNat (toU32 lo).toNat = (toU32 x).toNat + (toU32 lo).toNat := by
    rw [hc]
    exact (Nat.mul_add_lt_is_or hn c).symm
  unfold orInt
  rw [hor]
  unfold toI32 toU32
  simp only [Int.ofNat_eq_coe]
  omega

/-- The assembly of an axis sample from its two bytes never leaves the `int16_t` range and
gives the two's-complement value of the 16-bit word. -/
theorem gyro_sample_eq (lo hi : Int) (hlo : 0 ≤ lo ∧ lo < 256) :
    (-32768 ≤ toI8 hi * 256 ∧ toI8 hi * 256 ≤ 32767) ∧
    orInt (toI8 hi * 256) lo = 256 * toI8 hi + lo ∧
    (-32768 ≤ 256 * toI8 hi + lo ∧ 256 * toI8 hi + lo ≤ 32767) ∧
    Gyro.sample lo hi = 256 * toI8 hi + lo ∧
    256 * toI8 hi + lo = toI16 (256 * hi + lo) := by
  have h8 : -128 ≤ toI8 hi ∧ toI8 hi ≤ 127 := by unfold toI8; omega
  have hor : orInt (toI8 hi * 256) lo = toI8 hi * 256 + lo :=
    orInt_low_byte _ lo (by omega) (by omega) hlo
  refine ⟨by omega, by rw [hor]; ring, by omega, ?_, ?_⟩
  · unfold Gyro.sample
    have e1 : toI16 (toI8 hi) = toI8 hi := by unfold toI16; omega
    have e2 : toI16 (toI8 hi * 256) = toI8 hi * 256 := by unfold toI16; omega
    simp only [e1, e2, hor]
    unfold toI16; omega
  · unfold toI8 toI16; omega

/-- C3: for every bus whose address write and 6-byte read succeed, with `d 0 .. d 5` the
bytes delivered, and every recognized range with full scale `R` (250, 500 or 2000), a
`Gyro::read` returns `SUCCESS` and writes for each axis `i` the value
`v[i] = s i * R / 32768`, an exact rational (no float operation rounds), where
`s i = 256 * int8(d (2i+1)) + uint8(d (2i))`.  For each axis the product of the
reinterpreted high byte and 256 stays within `int16_t`, OR-ing the low byte in gives
`s i`, which lies in `[-32768, 32767]` and is the two's-complement value of the word
with high byte `d (2i+1)` and low byte `d (2i)`. -/
theorem gyro_read_values (E : ErrorCodes) (g : Gyro) (buf : Vec3) (R : Int)
    (hR : g.range.dps = some R)
    (hw : (g.i2c.write g.address [toU8 (orInt g.registerOut 0x80)] true).1 = 0)
    (hrd : ((g.i2c.write g.address [toU8 (orInt g.registerOut 0x80)] true).2.read
      g.address 6 false).1 = 0) :
    let rd := (g.i2c.write g.address [toU8 (orInt g.registerOut 0x80)] true).2.read
      g.address 6 false
    let d : Nat → Int := fun n => rd.2.1.getD n 0
    let s : Nat → Int := fun i => 256 * toI8 (d (2 * i + 1)) + toU8 (d (2 * i))
    (R = 250 ∨ R = 500 ∨ R = 2000) ∧
    g.read E (some buf) = (E.SUCCESS, { g with i2c := rd.2.2 },
      some ⟨(s 0 : ℚ) * R / 32768, (s 1 : ℚ) * R / 32768, (s 2 : ℚ) * R / 32768⟩) ∧
    (∀ i < 3,
      (-32768 ≤ toI8 (d (2 * i + 1)) * 256 ∧ toI8 (d (2 * i + 1)) * 256 ≤ 32767) ∧
      orInt (toI8 (d (2 * i + 1)) * 256) (toU8 (d (2 * i))) = s i ∧
      Gyro.sample (toU8 (d (2 * i))) (toU8 (d (2 * i + 1))) = s i ∧
      (-32768 ≤ s i ∧ s i ≤ 32767) ∧
      s i = toI16 (256 * d (2 * i + 1) + d (2 * i))) := by
  intro rd d s
  have hR' : R = 250 ∨ R = 500 ∨ R = 2000 := by
    cases hg : g.range <;> rw [hg] at hR <;> simp [Range.dps] at hR <;> omega
  have hread : g.read E (some buf) = (E.SUCCESS, { g with i2c := rd.2.2 },
      some ⟨Gyro.scale (Gyro.sample (toU8 (d 0)) (toU8 (d 1))) R,
        Gyro.scale (Gyro.sample (toU8 (d 2)) (toU8 (d 3))) R,
        Gyro.scale (Gyro.sample (toU8 (d 4)) (toU8 (d 5))) R⟩) := by
    cases hg : g.range <;> rw [hg] at hR <;> simp [Range.dps] at hR <;> subst hR <;>
      simp [Gyro.read, hw, hrd, hg, rd, d]
  have hd : ∀ n, n < 6 → 0 ≤ d n ∧ d n < 256 := by
    intro n hn
    have : d n = toU8 (g.i2c.rx (g.i2c.log ++
        [BusOp.write g.address [toU8 (orInt g.registerOut 0x80)] true]) n) := by
      interval_cases n <;> simp [d, rd, I2C.read, I2C.write, List.range_succ]
    rw [this]; unfold toU8; omega
  have hs : ∀ i, s i = 256 * toI8 (d (2 * i + 1)) + toU8 (d (2 * i)) := fun _ => rfl
  clear_value s d rd
  have hU : ∀ n, n < 6 → toU8 (d n) = d n := by
    intro n hn
    have := hd n hn
    unfold toU8; omega
  have hkey : ∀ i < 3,
      (-32768 ≤ toI8 (d (2 * i + 1)) * 256 ∧ toI8 (d (2 * i + 1)) * 256 ≤ 32767) ∧
      orInt (toI8 (d (2 * i + 1)) * 256) (toU8 (d (2 * i))) = s i ∧
      Gyro.sample (toU8 (d (2 * i))) (toU8 (d (2 * i + 1))) = s i ∧
      (-32768 ≤ s i ∧ s i ≤ 32767) ∧
      s i = toI16 (256 * d (2 * i + 1) + d (2 * i)) := by
    intro i hi
    have hb : 0 ≤ toU8 (d (2 * i)) ∧ toU8 (d (2 * i)) < 256 := by unfold toU8; omega
    have h := gyro_sample_eq (toU8 (d (2 * i))) (toU8 (d (2 * i + 1))) hb
    have e : toU8 (d (2 * i + 1)) = d (2 * i + 1) := hU _ (by omega)
    have e0 : toU8 (d (2 * i)) = d (2 * i) := hU _ (by omega)
    rw [hs i]
    rw [e] at h
    refine ⟨h.1, h.2.1, ?_, h.2.2.1, ?_⟩
    · rw [e]; exact h.2.2.2.1
    · have h5 := h.2.2.2.2
      rw [e0] at h5 ⊢
      exact h5
  refine ⟨hR', ?_, hkey⟩
  have s0 := hkey 0 (by norm_num)
  have s1 := hkey 1 (by norm_num)
  have s2 := hkey 2 (by norm_num)
  have q0 := gyro_scale_exact (s 0) R s0.2.2.2.1 hR'
  have q1 := gyro_scale_exact (s 1) R s1.2.2.2.1 hR'
  have q2 := gyro_scale_exact (s 2) R s2.2.2.2.1 hR'
  rw [hread, ← q0, ← q1, ← q2, ← s0.2.2.1, ← s1.2.2.1, ← s2.2.2.1]

/-! ## Properties of `Altitude` -/

/-- `readCalibration` is the chain of reads over the table of its eleven calls. -/
theorem readCalibration_eq_readRegs (E : ErrorCodes) (a : Altitude) :
    a.readCalibration E = Altitude.readRegs E calTable a := rfl

/-- The three outcomes of one call of `Altitude::read`, by the two statuses of the bus. -/
theorem altitude_read_cases (E : ErrorCodes) (a : Altitude) (add : Int) :
    let w := BusOp.write a.address [toU8 add] true
    let ws := a.i2c.status a.i2c.log w
    let rs := a.i2c.status (a.i2c.log ++ [w]) (BusOp.read a.address 2 false)
    (ws ≠ 0 → a.read E add = (E.ERR_ALT_WRITE, { a.i2c with log := a.i2c.log ++ [w] }, none)) ∧
    (ws = 0 → rs ≠ 0 → a.read E add =
      (E.ERR_ALT_READ, { a.i2c with log := a.i2c.log ++ regOps a.address add }, none)) ∧
    (ws = 0 → rs = 0 → a.read E add =
      (E.SUCCESS, { a.i2c with log := a.i2c.log ++ regOps a.address add },
        some (toI16 (orInt (toI16 (shl32 (charVal a.charSigned
          (toU8 (a.i2c.rx (a.i2c.log ++ [w]) 0))) 8))
          (charVal a.charSigned (toU8 (a.i2c.rx (a.i2c.log ++ [w]) 1))))))) := by
  intro w ws rs
  refine ⟨?_, ?_, ?_⟩
  · intro h
    have h' : a.i2c.status a.i2c.log (BusOp.write a.address [toU8 add] true) ≠ 0 := h
    simp [Altitude.read, I2C.write, h', w]
  · intro h1 h2
    have h1' : a.i2c.status a.i2c.log (BusOp.write a.address [toU8 add] true) = 0 := h1
    have h2' : a.i2c.status (a.i2c.log ++ [BusOp.write a.address [toU8 add] true])
      (BusOp.read a.address 2 false) ≠ 0 := h2
    simp [Altitude.read, I2C.write, I2C.read, h1', h2', regOps]
  · intro h1 h2
    have h1' : a.i2c.status a.i2c.log (BusOp.write a.address [toU8 add] true) = 0 := h1
    have h2' : a.i2c.status (a.i2c.log ++ [BusOp.write a.address [toU8 add] true])
      (BusOp.read a.address 2 false) = 0 := h2
    simp [Altitude.read, I2C.write, I2C.read, h1', h2', regOps, w, List.range_succ]

/-- The operations of two runs of register reads, one after the other. -/
theorem calOps_append (address : Nat) (xs ys : List Int) :
    calOps address (xs ++ ys) = calOps address xs ++ calOps address ys := by
  induction xs with
  | nil => simp [calOps]
  | cons x xs ih => simp [calOps, ih]

/-- After one complete register read, the `j`-th read of the remaining sequence meets the
bus that the `j + 1`-st read of the whole sequence meets. -/
theorem statusAt_shift (a a1 : Altitude) (add : Int) (adds : List Int) (j : Nat)
    (hi : a1.i2c = { a.i2c with log := a.i2c.log ++ regOps a.address add })
    (had : a1.address = a.address) (hc : a1.charSigned = a.charSigned) :
    a1.writeStatusAt adds j = a.writeStatusAt (add :: adds) (j + 1) ∧
    a1.readStatusAt adds j = a.readStatusAt (add :: adds) (j + 1) ∧
    a1.wordAt adds j = a.wordAt (add :: adds) (j + 1) ∧
    a1.i2c.log ++ calOps a1.address (adds.take j) =
      a.i2c.log ++ calOps a.address ((add :: adds).take (j + 1)) := by
  simp [Altitude.writeStatusAt, Altitude.readStatusAt, Altitude.wordAt, hi, had, hc, calOps,
    List.append_assoc]

/-- What a chain of register reads does when its first `k` reads succeed and the next
one, if there is one, fails: the code returned, the bus operations performed, what is
left untouched and what is stored. -/
theorem readRegs_spec (E : ErrorCodes) (h0 : E.SUCCESS = 0) (haw : E.ERR_ALT_WRITE ≠ 0)
    (har : E.ERR_ALT_READ ≠ 0) (tbl : List (Int × Setter))
    (hloc : ∀ e ∈ tbl, ∀ s d, (e.2 s d).i2c = s.i2c ∧ (e.2 s d).address = s.address ∧
      (e.2 s d).charSigned = s.charSigned) :
    ∀ (a : Altitude) (k : Nat), k ≤ tbl.length →
    (∀ j < k, a.writeStatusAt (tbl.map Prod.fst) j = 0 ∧
      a.readStatusAt (tbl.map Prod.fst) j = 0) →
    (k < tbl.length → a.writeStatusAt (tbl.map Prod.fst) k ≠ 0 ∨
      a.readStatusAt (tbl.map Prod.fst) k ≠ 0) →
    ((Altitude.readRegs E tbl a).1 = E.SUCCESS ↔ k = tbl.length) ∧
    (k < tbl.length → a.writeStatusAt (tbl.map Prod.fst) k ≠ 0 →
      (Altitude.readRegs E tbl a).1 = E.ERR_ALT_WRITE ∧
      (Altitude.readRegs E tbl a).2.i2c.log =
        a.i2c.log ++ calOps a.address ((tbl.map Prod.fst).take k) ++
          [BusOp.write a.address [toU8 ((tbl.map Prod.fst).getD k 0)] true]) ∧
    (k < tbl.length → a.writeStatusAt (tbl.map Prod.fst) k = 0 →
      (Altitude.readRegs E tbl a).1 = E.ERR_ALT_READ ∧
      (Altitude.readRegs E tbl a).2.i2c.log =
        a.i2c.log ++ calOps a.address ((tbl.map Prod.fst).take (k + 1))) ∧
    (k = tbl.length → (Altitude.readRegs E tbl a).2.i2c.log =
        a.i2c.log ++ calOps a.address (tbl.map Prod.fst)) ∧
    (∀ get : Altitude → Int, (∀ s bus, get { s with i2c := bus } = get s) →
      (∀ e ∈ tbl.take k, ∀ s d, get (e.2 s d) = get s) →
      get (Altitude.readRegs E tbl a).2 = get a) ∧
    (∀ j < k, ∀ (get : Altitude → Int) (conv : Int → Int),
      (∀ s bus, get { s with i2c := bus } = get s) →
      (∀ e, tbl[j]? = some e → ∀ s d, get (e.2 s d) = conv d) →
      (∀ e ∈ (tbl.take k).drop (j + 1), ∀ s d, get (e.2 s d) = get s) →
      get (Altitude.readRegs E tbl a).2 = conv (a.wordAt (tbl.map Prod.fst) j)) := by
  induction tbl with
  | nil =>
    intro a k hk _ _
    have hk0 : k = 0 := by simpa using hk
    subst hk0
    simp [Altitude.readRegs, calOps]
  | cons e rest ih =>
    obtain ⟨add, set⟩ := e
    have hloc' : ∀ e ∈ rest, ∀ s d, (e.2 s d).i2c = s.i2c ∧ (e.2 s d).address = s.address ∧
        (e.2 s d).charSigned = s.charSigned := fun e he => hloc e (List.mem_cons_of_mem _ he)
    have hset := hloc (add, set) (List.mem_cons_self _ _)
    intro a k hk hok hfail
    have hrd := altitude_read_cases E a add
    simp only at hrd
    obtain ⟨hrd1, hrd2, hrd3⟩ := hrd
    cases k with
    | zero =>
      have hfail0 := hfail (by simp)
      have hws : a.writeStatusAt ((add, set) :: rest |>.map Prod.fst) 0 =
          a.i2c.status a.i2c.log (BusOp.write a.address [toU8 add] true) := by
        simp [Altitude.writeStatusAt, calOps]
      have hrs : a.readStatusAt ((add, set) :: rest |>.map Prod.fst) 0 =
          a.i2c.status (a.i2c.log ++ [BusOp.write a.address [toU8 add] true])
            (BusOp.read a.address 2 false) := by
        simp [Altitude.readStatusAt, calOps]
      rw [hws, hrs] at hfail0
      rw [hws]
      by_cases hw : a.i2c.status a.i2c.log (BusOp.write a.address [toU8 add] true) = 0
      · have hr : a.i2c.status (a.i2c.log ++ [BusOp.write a.address [toU8 add] true])
            (BusOp.read a.address 2 false) ≠ 0 := by
          rcases hfail0 with h | h
          · exact absurd hw h
          · exact h
        have hread := hrd2 hw hr
        have hres : Altitude.readRegs E ((add, set) :: rest) a = (E.ERR_ALT_READ,
            { a with i2c := { a.i2c with log := a.i2c.log ++ regOps a.address add } }) := by
          simp only [Altitude.readRegs, hread, Altitude.stored]
          simp [har]
        rw [hres]
        refine ⟨?_, ?_, ?_, ?_, ?_, ?_⟩
        · simp [h0, har]
        · intro _ h; exact absurd hw h
        · intro _ _; simp [calOps]
        · intro h; simp at h
        · intro get hget _; exact hget _ _
        · intro j hj; exact absurd hj (by simp)
      · have hread := hrd1 hw
        have hres : Altitude.readRegs E ((add, set) :: rest) a = (E.ERR_ALT_WRITE,
            { a with i2c := { a.i2c with log := a.i2c.log ++
              [BusOp.write a.address [toU8 add] true] } }) := by
          simp only [Altitude.readRegs, hread, Altitude.stored]
          simp [haw]
        rw [hres]
        refine ⟨?_, ?_, ?_, ?_, ?_, ?_⟩
        · simp [h0, haw]
        · intro _ _; simp [calOps]
        · intro _ h; exact absurd h hw
        · intro h; simp at h
        · intro get hget _; exact hget _ _
        · intro j hj; exact absurd hj (by simp)
    | succ k =>
      have hok0 := hok 0 (by simp)
      have hws : a.writeStatusAt ((add, set) :: rest |>.map Prod.fst) 0 =
          a.i2c.status a.i2c.log (BusOp.write a.address [toU8 add] true) := by
        simp [Altitude.writeStatusAt, calOps]
      have hrs : a.readStatusAt ((add, set) :: rest |>.map Prod.fst) 0 =
          a.i2c.status (a.i2c.log ++ [BusOp.write a.address [toU8 add] true])
            (BusOp.read a.address 2 false) := by
        simp [Altitude.readStatusAt, calOps]
      rw [hws, hrs] at hok0
      have hread := hrd3 hok0.1 hok0.2
      have hword : a.wordAt ((add, set) :: rest |>.map Prod.fst) 0 =
          toI16 (orInt (toI16 (shl32 (charVal a.charSigned
            (toU8 (a.i2c.rx (a.i2c.log ++ [BusOp.write a.address [toU8 add] true]) 0))) 8))
            (charVal a.charSigned
              (toU8 (a.i2c.rx (a.i2c.log ++ [BusOp.write a.address [toU8 add] true]) 1)))) := by
        simp [Altitude.wordAt, calOps]
      rw [← hword] at hread
      generalize hwd : a.wordAt ((add, set) :: rest |>.map Prod.fst) 0 = word at hread
      -- the object after the first, successful, register read
      set a1 : Altitude :=
        set { a with i2c := { a.i2c with log := a.i2c.log ++ regOps a.address add } } word
        with ha1
      have hstep : Altitude.readRegs E ((add, set) :: rest) a = Altitude.readRegs E rest a1 := by
        simp only [Altitude.readRegs, hread, Altitude.stored]
        simp [h0, ha1]
      have hi : a1.i2c = { a.i2c with log := a.i2c.log ++ regOps a.address add } := by
        rw [ha1]; exact (hset _ _).1
      have had : a1.address = a.address := by rw [ha1]; exact (hset _ _).2.1
      have hc : a1.charSigned = a.charSigned := by rw [ha1]; exact (hset _ _).2.2
      have hsh := fun j => statusAt_shift a a1 add (rest.map Prod.fst) j hi had hc
      have hk' : k ≤ rest.length := by simpa using hk
      have hok' : ∀ j < k, a1.writeStatusAt (rest.map Prod.fst) j = 0 ∧
          a1.readStatusAt (rest.map Prod.fst) j = 0 := by
        intro j hj
        have := hok (j + 1) (by omega)
        rw [(hsh j).1, (hsh j).2.1]
        simpa using this
      have hfail' : k < rest.length → a1.writeStatusAt (rest.map Prod.fst) k ≠ 0 ∨
          a1.readStatusAt (rest.map Prod.fst) k ≠ 0 := by
        intro hlt
        have := hfail (by simpa using hlt)
        rw [(hsh k).1, (hsh k).2.1]
        simpa using this
      obtain ⟨c1, c2, c3, c4, c5, c6⟩ := ih hloc' a1 k hk' hok' hfail'
      rw [hstep]
      have hlog1 : a1.i2c.log = a.i2c.log ++ regOps a.address add := by rw [hi]
      refine ⟨?_, ?_, ?_, ?_, ?_, ?_⟩
      · rw [c1]; simp
      · intro hlt hw
        have hlt' : k < rest.length := by simpa using hlt
        have hw' : a1.writeStatusAt (rest.map Prod.fst) k ≠ 0 := by
          rw [(hsh k).1]; simpa using hw
        obtain ⟨r1, r2⟩ := c2 hlt' hw'
        refine ⟨r1, ?_⟩
        rw [r2, (hsh k).2.2.2, had]
        simp
      · intro hlt hw
        have hlt' : k < rest.length := by simpa using hlt
        have hw' : a1.writeStatusAt (rest.map Prod.fst) k = 0 := by
          rw [(hsh k).1]; simpa using hw
        obtain ⟨r1, r2⟩ := c3 hlt' hw'
        refine ⟨r1, ?_⟩
        rw [r2, (hsh (k + 1)).2.2.2]
        simp
      · intro hlen
        have hlen' : k = rest.length := by simpa using hlen
        rw [c4 hlen', hlog1, had]
        simp [calOps, List.append_assoc]
      · intro get hget hfr
        have hfr' : ∀ e ∈ rest.take k, ∀ s d, get (e.2 s d) = get s := by
          intro e he
          exact hfr e (by simp [he])
        rw [c5 get hget hfr', ha1, hfr (add, set) (by simp), hget]
      · intro j hj get conv hget hsetj hfr
        cases j with
        | zero =>
          have hfr' : ∀ e ∈ rest.take k, ∀ s d, get (e.2 s d) = get s := by
            intro e he
            exact hfr e (by simpa using he)
          rw [c5 get hget hfr', ha1, hsetj (add, set) (by simp), hwd]
        | succ j =>
          have hsetj' : ∀ e, rest[j]? = some e → ∀ s d, get (e.2 s d) = conv d := by
            intro e he
            exact hsetj e (by simpa using he)
          have hfr' : ∀ e ∈ (rest.take k).drop (j + 1), ∀ s d, get (e.2 s d) = get s := by
            intro e he
            exact hfr e (by simpa using he)
          rw [c6 j (by omega) get conv hget hsetj' hfr', (hsh j).2.2.1]
          simp

/-- The stores of the calls before the `j`-th do not touch the `j`-th constant. -/
theorem calTable_before (j : Nat) (hj : j < 11) :
    ∀ e ∈ calTable.take j, ∀ (s : Altitude) (d : Int),
      (e.2 s d).calConst.getD j 0 = s.calConst.getD j 0 := by
  interval_cases j <;> simp [calTable, Altitude.calConst]

/-- The stores of the calls after the `j`-th do not touch the `j`-th constant. -/
theorem calTable_after (j : Nat) (hj : j < 11) :
    ∀ e ∈ calTable.drop (j + 1), ∀ (s : Altitude) (d : Int),
      (e.2 s d).calConst.getD j 0 = s.calConst.getD j 0 := by
  interval_cases j <;> simp [calTable, Altitude.calConst]

/-- The store of the `j`-th call puts the word read into the `j`-th constant. -/
theorem calTable_at (j : Nat) (hj : j < 11) :
    ∀ e, calTable[j]? = some e → ∀ (s : Altitude) (d : Int),
      (e.2 s d).calConst.getD j 0 = calConv j d := by
  interval_cases j <;> simp [calTable, Altitude.calConst, calConv]

/-- The stores of `readCalibration` touch neither the bus nor the address nor the
signedness of `char`. -/
theorem calTable_local : ∀ e ∈ calTable, ∀ (s : Altitude) (d : Int),
    (e.2 s d).i2c = s.i2c ∧ (e.2 s d).address = s.address ∧
      (e.2 s d).charSigned = s.charSigned := by
  simp [calTable]

/-- Among `n` consecutive attempts there is a first one that fails, or all succeed. -/
theorem first_failure_exists (ok : Nat → Prop) (n : Nat) :
    ∃ k, k ≤ n ∧ (∀ j < k, ok j) ∧ (k < n → ¬ ok k) := by
  induction n with
  | zero =>
    exact ⟨0, le_refl 0, fun j hj => absurd hj (Nat.not_lt_zero j),
      fun h => absurd h (lt_irrefl 0)⟩
  | succ n ih =>
    obtain ⟨k, hk, hok, hfail⟩ := ih
    by_cases hlt : k < n
    · exact ⟨k, by omega, hok, fun _ => hfail hlt⟩
    · have hkn : k = n := by omega
      subst hkn
      by_cases hn : ok k
      · refine ⟨k + 1, le_refl _, ?_, fun h => absurd h (lt_irrefl _)⟩
        intro j hj
        by_cases hjk : j < k
        · exact hok j hjk
        · have : j = k := by omega
          rw [this]; exact hn
      · exact ⟨k, by omega, hok, fun _ => hn⟩

/-- C4: `Altitude::readCalibration` (and so `Altitude::init`, which is the same function)
reads the registers `0xAA, 0xAC, ..., 0xBE` in this order into `ac1, ac2, ac3, ac4, ac5,
ac6, b1, b2, mb, mc, md`.  Let `SUCCESS` be zero and the two error codes non-zero.
For every bus there is a number `k` of leading register reads that succeed (both the
address write and the 2-byte read acknowledged), with read number `k` failing if
`k < 11`, and for it the return value is `SUCCESS` exactly if `k = 11`; if the address write
of read `k` fails it is `ERR_ALT_WRITE` and the bus has seen the `k` complete reads and
that write, nothing more; if its 2-byte read fails it is `ERR_ALT_READ` and the bus has
seen `k + 1` reads, nothing more; the constants number `k` and later are unchanged, and
each constant before `k` holds the word read from its register. -/
theorem readCalibration_first_failure (E : ErrorCodes) (h0 : E.SUCCESS = 0)
    (haw : E.ERR_ALT_WRITE ≠ 0) (har : E.ERR_ALT_READ ≠ 0) (a : Altitude) :
    a.init E = a.readCalibration E ∧
    ∃ k, k ≤ 11 ∧
    (∀ j < k, a.writeStatusAt calAddrs j = 0 ∧ a.readStatusAt calAddrs j = 0) ∧
    (k < 11 → a.writeStatusAt calAddrs k ≠ 0 ∨ a.readStatusAt calAddrs k ≠ 0) ∧
    ((a.readCalibration E).1 = E.SUCCESS ↔ k = 11) ∧
    (k < 11 → a.writeStatusAt calAddrs k ≠ 0 →
      (a.readCalibration E).1 = E.ERR_ALT_WRITE ∧
      (a.readCalibration E).2.i2c.log =
        a.i2c.log ++ calOps a.address (calAddrs.take k) ++
          [BusOp.write a.address [toU8 (calAddrs.getD k 0)] true]) ∧
    (k < 11 → a.writeStatusAt calAddrs k = 0 →
      (a.readCalibration E).1 = E.ERR_ALT_READ ∧
      (a.readCalibration E).2.i2c.log =
        a.i2c.log ++ calOps a.address (calAddrs.take (k + 1))) ∧
    (k = 11 → (a.readCalibration E).2.i2c.log = a.i2c.log ++ calOps a.address calAddrs) ∧
    (∀ j, k ≤ j → j < 11 →
      (a.readCalibration E).2.calConst.getD j 0 = a.calConst.getD j 0) ∧
    (∀ j < k, (a.readCalibration E).2.calConst.getD j 0 =
      calConv j (a.wordAt calAddrs j)) := by
  refine ⟨rfl, ?_⟩
  obtain ⟨k, hk, hok, hfail⟩ := first_failure_exists
    (fun j => a.writeStatusAt calAddrs j = 0 ∧ a.readStatusAt calAddrs j = 0) 11
  have hfail2 : k < 11 → a.writeStatusAt calAddrs k ≠ 0 ∨ a.readStatusAt calAddrs k ≠ 0 := by
    intro hlt
    have := hfail hlt
    by_cases hw : a.writeStatusAt calAddrs k = 0
    · right
      intro hr
      exact this ⟨hw, hr⟩
    · left
      exact hw
  refine ⟨k, hk, hok, hfail2, ?_⟩
  have hadds : calTable.map Prod.fst = calAddrs := rfl
  have hlen : calTable.length = 11 := rfl
  have h := readRegs_spec E h0 haw har calTable calTable_local a k (by rw [hlen]; exact hk)
    (by rw [hadds]; exact hok) (by rw [hadds, hlen]; exact hfail2)
  rw [hadds, hlen, ← readCalibration_eq_readRegs] at h
  obtain ⟨c1, c2, c3, c4, c5, c6⟩ := h
  refine ⟨c1, c2, c3, c4, ?_, ?_⟩
  · intro j hkj hj
    refine c5 (fun s => s.calConst.getD j 0) (fun _ _ => rfl) ?_
    intro e he
    refine calTable_before j hj e ?_
    have : List.take k calTable = List.take k (List.take j calTable) := by
      rw [List.take_take, min_eq_left hkj]
    rw [this] at he
    exact List.mem_of_mem_take he
  · intro j hj
    refine c6 j hj (fun s => s.calConst.getD j 0) (calConv j) (fun _ _ => rfl)
      (calTable_at j (by omega)) ?_
    intro e he
    refine calTable_after j (by omega) e ?_
    rw [List.drop_take] at he
    exact List.mem_of_mem_take he

/-- C6: `Altitude::readPressure` departs from the compensation formula of the data sheet.
With the calibration constants of the data sheet example except `b2 = 36`, with
`b5 = 519`, `OSS = 0` and a bus that delivers the raw reading `up = 23843`, it returns
`SUCCESS` with the pressure 68084, where the formula with the term
`X1 = (b2 * ((b6 * b6) >> 12)) >> 11` gives 68087.  On the example of the data sheet
itself (`b2 = 4`, `b5 = 2399`) both give 69964. -/
theorem readPressure_grouping_divergence :
    ((exampleAltitude (steadyBus [0x5D, 0x23, 0x00]) 36 519).readUP exampleCodes).1 = 0 ∧
    ((exampleAltitude (steadyBus [0x5D, 0x23, 0x00]) 36 519).readUP exampleCodes).2.2 =
      some 23843 ∧
    ((exampleAltitude (steadyBus [0x5D, 0x23, 0x00]) 36 519).readPressure exampleCodes).map
      (fun r => (r.1, r.2.2)) = some (0, some 68084) ∧
    (exampleAltitude (steadyBus [0x5D, 0x23, 0x00]) 36 519).pressureRef 23843 = some 68087 ∧
    ((exampleAltitude (steadyBus [0x5D, 0x23, 0x00]) 4 2399).readPressure exampleCodes).map
      (fun r => (r.1, r.2.2)) = some (0, some 69964) ∧
    (exampleAltitude (steadyBus [0x5D, 0x23, 0x00]) 4 2399).pressureRef 23843 = some 69964 := by
  refine ⟨?_, ?_, ?_, ?_, ?_, ?_⟩ <;> decide

/-- C8: over the real numbers with the real power, for every pressure `p > 0`,
`Altitude::calculateAltitude p = 44330 * (1 - (p / 101325) ^ (1 / 5.255))`; the value is
exactly 0 at `p = 101325`, strictly positive for `p < 101325` and strictly negative for
`p > 101325`. -/
theorem calculateAltitude_formula_and_sign (p : Int) (hp : 0 < p) :
    Altitude.calculateAltitude (fun x y : ℝ => x ^ y) p =
      44330 * (1 - ((p : ℝ) / 101325) ^ ((1 : ℝ) / 5.255)) ∧
    Altitude.calculateAltitude (fun x y : ℝ => x ^ y) 101325 = 0 ∧
    (p < 101325 → 0 < Altitude.calculateAltitude (fun x y : ℝ => x ^ y) p) ∧
    (101325 < p → Altitude.calculateAltitude (fun x y : ℝ => x ^ y) p < 0) := by
  have hform : ∀ q : Int, Altitude.calculateAltitude (fun x y : ℝ => x ^ y) q =
      44330 * (1 - ((q : ℝ) / 101325) ^ ((1 : ℝ) / 5.255)) := by
    intro q
    unfold Altitude.calculateAltitude
    norm_num
    congr 1
    ring
  have hexp : (0 : ℝ) < (1 : ℝ) / 5.255 := by norm_num
  have hpr : (0 : ℝ) < (p : ℝ) := by exact_mod_cast hp
  refine ⟨hform p, ?_, ?_, ?_⟩
  · rw [hform]
    norm_num
  · intro hlt
    rw [hform]
    have hlt' : (p : ℝ) < 101325 := by exact_mod_cast hlt
    have hx : (p : ℝ) / 101325 < 1 := by
      rw [div_lt_one (by norm_num)]
      exact hlt'
    have hx0 : 0 ≤ (p : ℝ) / 101325 := by positivity
    have := Real.rpow_lt_one hx0 hx hexp
    nlinarith
  · intro hgt
    rw [hform]
    have hgt' : (101325 : ℝ) < (p : ℝ) := by exact_mod_cast hgt
    have hx : 1 < (p : ℝ) / 101325 := by
      rw [one_lt_div (by norm_num)]
      exact hgt'
    have := Real.one_lt_rpow hx hexp
    nlinarith

/-! ## Properties of the model of `Attitude::calculate` -/

/-- A filter update with a positive time step does not fail. -/
theorem kalman_update_isSome (k : Kalman) (m r dt : ℚ) (h : 0 < dt) :
    ∃ k2, k.update m r dt = some k2 := by
  unfold Kalman.update
  rw [if_neg (not_le.mpr h)]
  exact ⟨_, rfl⟩

/-- C5: in the model of `Attitude::calculate`, with a positive floor for `dt`, for every
prior state: if the gyro read fails (returns a non-zero code `c`), `calculate` returns
`c` and `roll`, `pitch`, `yaw`, both filters and the timestamp are exactly as before;
the same holds if the gyro read succeeds and the accelerometer read fails with `c`;
and `calculate` returns 0 if and only if both reads succeed. -/
theorem attitude_calculate_failure (E : ErrorCodes) (M : AttitudeEnv) (now : ℚ)
    (t : Attitude) (hM : 0 < M.epsilon) :
    (∀ c, (t.gyro.read E (some ⟨0, 0, 0⟩)).1 = c → c ≠ 0 →
      (t.calculate E M now).1 = c ∧ (t.calculate E M now).2.roll = t.roll ∧
      (t.calculate E M now).2.pitch = t.pitch ∧ (t.calculate E M now).2.yaw = t.yaw ∧
      (t.calculate E M now).2.pitchFilter = t.pitchFilter ∧
      (t.calculate E M now).2.rollFilter = t.rollFilter ∧
      (t.calculate E M now).2.lastUpdateTimestamp = t.lastUpdateTimestamp) ∧
    (∀ c, (t.gyro.read E (some ⟨0, 0, 0⟩)).1 = 0 → (t.acc.read ⟨0, 0, 0⟩).1 = c → c ≠ 0 →
      (t.calculate E M now).1 = c ∧ (t.calculate E M now).2.roll = t.roll ∧
      (t.calculate E M now).2.pitch = t.pitch ∧ (t.calculate E M now).2.yaw = t.yaw ∧
      (t.calculate E M now).2.pitchFilter = t.pitchFilter ∧
      (t.calculate E M now).2.rollFilter = t.rollFilter ∧
      (t.calculate E M now).2.lastUpdateTimestamp = t.lastUpdateTimestamp) ∧
    ((t.calculate E M now).1 = 0 ↔
      ((t.gyro.read E (some ⟨0, 0, 0⟩)).1 = 0 ∧ (t.acc.read ⟨0, 0, 0⟩).1 = 0)) := by
  refine ⟨?_, ?_, ?_⟩
  · intro c hc hne
    subst hc
    simp [Attitude.calculate, hne]
  · intro c hg hc hne
    subst hc
    simp [Attitude.calculate, hg, hne]
  · by_cases hg : (t.gyro.read E (some ⟨0, 0, 0⟩)).1 = 0
    · by_cases ha : (t.acc.read ⟨0, 0, 0⟩).1 = 0
      · simp only [hg, ha, and_self, iff_true]
        unfold Attitude.calculate
        simp only [hg, ha, ne_eq, not_true_eq_false, if_false]
        cases hl : t.lastUpdateTimestamp with
        | none => rfl
        | some last =>
          simp only
          have hdt : 0 < max (now - last) M.epsilon := lt_max_of_lt_right hM
          obtain ⟨k1, hk1⟩ := kalman_update_isSome t.pitchFilter
            (M.atan2Deg (t.acc.read ⟨0, 0, 0⟩).2.2.v1
              (M.sqrt ((t.acc.read ⟨0, 0, 0⟩).2.2.v0 * (t.acc.read ⟨0, 0, 0⟩).2.2.v0 +
                (t.acc.read ⟨0, 0, 0⟩).2.2.v2 * (t.acc.read ⟨0, 0, 0⟩).2.2.v2)))
            ((t.gyro.read E (some ⟨0, 0, 0⟩)).2.2.getD ⟨0, 0, 0⟩).v1 _ hdt
          obtain ⟨k2, hk2⟩ := kalman_update_isSome t.rollFilter
            (M.atan2Deg (-(t.acc.read ⟨0, 0, 0⟩).2.2.v0) (t.acc.read ⟨0, 0, 0⟩).2.2.v2)
            ((t.gyro.read E (some ⟨0, 0, 0⟩)).2.2.getD ⟨0, 0, 0⟩).v0 _ hdt
          simp only [hk1, hk2]
      · simp [Attitude.calculate, hg, ha]
    · simp [Attitude.calculate, hg]

/-! ## The properties at concrete inputs -/

/-- C1 at the range value 7, which is none of the enumerators. -/
theorem gyro_init_unrecognized_witness :
    (Range.other 7 ≠ Range.r250DPS ∧ Range.other 7 ≠ Range.r500DPS ∧
      Range.other 7 ≠ Range.r2000DPS) ∧
    ((exampleGyro (steadyBus []) Range.r250DPS).init exampleCodes (Range.other 7)).1 =
      exampleCodes.ERR_ARGUMENT ∧
    ((exampleGyro (steadyBus []) Range.r250DPS).init exampleCodes (Range.other 7)).2.i2c =
      (exampleGyro (steadyBus []) Range.r250DPS).i2c ∧
    ((exampleGyro (steadyBus []) Range.r250DPS).init exampleCodes (Range.other 7)).2.i2c.log =
      (exampleGyro (steadyBus []) Range.r250DPS).i2c.log :=
  ⟨by decide, gyro_init_unrecognized exampleCodes (exampleGyro (steadyBus []) Range.r250DPS)
    (Range.other 7) (by decide)⟩

/-- C2 on a bus that acknowledges the address write only, and on a bus that
acknowledges everything. -/
theorem gyro_read_codes_witness :
    ((exampleGyro (failingBus 1 []) Range.r500DPS).read exampleCodes (some ⟨1, 2, 3⟩)).1 =
      exampleCodes.ERR_GYRO_READ ∧
    (((exampleGyro (steadyBus []) Range.r500DPS).read exampleCodes (some ⟨1, 2, 3⟩)).1 =
      exampleCodes.SUCCESS) :=
  ⟨((gyro_read_codes exampleCodes (exampleGyro (failingBus 1 []) Range.r500DPS)
      (some ⟨1, 2, 3⟩)).2.2.1 (by simp) (by decide) (by decide)).1,
   ((gyro_read_codes exampleCodes (exampleGyro (steadyBus []) Range.r500DPS)
      (some ⟨1, 2, 3⟩)).2.2.2 (by decide)).mpr
        ⟨by simp, by decide, by decide, by decide⟩⟩

/-- C3 on the bytes `34 12 FF FF 00 80` at the range of 2000 degrees per second: the
samples are 4660, -1 and -32768. -/
theorem gyro_read_values_witness :
    (exampleGyro (steadyBus [0x34, 0x12, 0xFF, 0xFF, 0x00, 0x80]) Range.r2000DPS).range.dps =
      some 2000 ∧
    ((exampleGyro (steadyBus [0x34, 0x12, 0xFF, 0xFF, 0x00, 0x80]) Range.r2000DPS).read
      exampleCodes (some ⟨0, 0, 0⟩)).2.2 =
      some ⟨(4660 : ℚ) * 2000 / 32768, (-1 : ℚ) * 2000 / 32768, (-32768 : ℚ) * 2000 / 32768⟩ :=
  ⟨rfl, (congrArg (fun r => r.2.2) (gyro_read_values exampleCodes
    (exampleGyro (steadyBus [0x34, 0x12, 0xFF, 0xFF, 0x00, 0x80]) Range.r2000DPS) ⟨0, 0, 0⟩ 2000
    rfl (by decide) (by decide)).2.1).trans
      (by simp [I2C.read, I2C.write, steadyBus, exampleGyro, toU8, toI8, List.range_succ])⟩

/-- C9 on a bus that acknowledges nothing. -/
theorem gyro_read_frame_witness :
    ((exampleGyro (failingBus 0 []) Range.r250DPS).read exampleCodes (some ⟨1, 2, 3⟩)).1 ≠
      exampleCodes.SUCCESS ∧
    ((exampleGyro (failingBus 0 []) Range.r250DPS).read exampleCodes (some ⟨1, 2, 3⟩)).2.2 =
      some ⟨1, 2, 3⟩ :=
  ⟨by decide, gyro_read_frame exampleCodes (exampleGyro (failingBus 0 []) Range.r250DPS)
    (some ⟨1, 2, 3⟩) (by decide)⟩

/-- C10 at the range value 7. -/
theorem gyro_init_rejected_not_atomic_witness :
    (exampleCodes.ERR_ARGUMENT ≠ exampleCodes.SUCCESS ∧
      exampleCodes.ERR_GYRO_WRITE ≠ exampleCodes.SUCCESS ∧
      exampleCodes.ERR_GYRO_READ ≠ exampleCodes.SUCCESS) ∧
    (Range.other 7).recognized = false ∧
    ((exampleGyro (steadyBus []) Range.r250DPS).init exampleCodes (Range.other 7)).1 =
      exampleCodes.ERR_ARGUMENT ∧
    ((exampleGyro (steadyBus []) Range.r250DPS).init exampleCodes (Range.other 7)).2.range =
      Range.other 7 :=
  ⟨by decide, rfl,
    (gyro_init_rejected_not_atomic exampleCodes (by decide)
      (exampleGyro (steadyBus []) Range.r250DPS) (Range.other 7) rfl).1,
    (gyro_init_rejected_not_atomic exampleCodes (by decide)
      (exampleGyro (steadyBus []) Range.r250DPS) (Range.other 7) rfl).2.1⟩

/-- C4 on a bus that acknowledges five operations: the third register read fails in
its 2-byte read and `ac3` keeps its value. -/
theorem readCalibration_first_failure_witness :
    exampleCodes.SUCCESS = 0 ∧ exampleCodes.ERR_ALT_WRITE ≠ 0 ∧
    exampleCodes.ERR_ALT_READ ≠ 0 ∧
    ((exampleAltitude (failingBus 5 [0x01, 0x98]) 4 0).readCalibration exampleCodes).1 =
      exampleCodes.ERR_ALT_READ ∧
    ((exampleAltitude (failingBus 5 [0x01, 0x98]) 4 0).readCalibration exampleCodes).2.ac3 =
      -14383 := by
  obtain ⟨k, hk, hok, hfail, -, -, c3, -, c5, -⟩ :=
    (readCalibration_first_failure exampleCodes rfl (by decide) (by decide)
      (exampleAltitude (failingBus 5 [0x01, 0x98]) 4 0)).2
  have hk2 : k = 2 := by
    have h01 : ∀ j < 2,
        (exampleAltitude (failingBus 5 [0x01, 0x98]) 4 0).writeStatusAt calAddrs j = 0 ∧
        (exampleAltitude (failingBus 5 [0x01, 0x98]) 4 0).readStatusAt calAddrs j = 0 := by
      decide
    have h2 : (exampleAltitude (failingBus 5 [0x01, 0x98]) 4 0).readStatusAt calAddrs 2 ≠ 0 := by
      decide
    rcases Nat.lt_trichotomy k 2 with h | h | h
    · have hf := hfail (by omega)
      have hs := h01 k h
      rcases hf with hf | hf
      · exact absurd hs.1 hf
      · exact absurd hs.2 hf
    · exact h
    · exact absurd (hok 2 h).2 h2
  subst hk2
  exact ⟨rfl, by decide, by decide, (c3 (by decide) (by decide)).1,
    c5 2 (by decide) (by decide)⟩

/-- C5 for an accelerometer that fails with code 7 on its third call. -/
theorem attitude_calculate_failure_witness :
    0 < exampleEnv.epsilon ∧
    (exampleAttitude.calculate exampleCodes exampleEnv 2).1 = 7 ∧
    (exampleAttitude.calculate exampleCodes exampleEnv 2).2.roll = exampleAttitude.roll ∧
    (exampleAttitude.calculate exampleCodes exampleEnv 2).2.pitch = exampleAttitude.pitch ∧
    (exampleAttitude.calculate exampleCodes exampleEnv 2).2.yaw = exampleAttitude.yaw :=
  have h := (attitude_calculate_failure exampleCodes exampleEnv 2 exampleAttitude
    (by norm_num [exampleEnv])).2.1 7 (by decide) (by decide) (by decide)
  ⟨by norm_num [exampleEnv], h.1, h.2.1, h.2.2.1, h.2.2.2.1⟩

/-- C8 at 90000 Pa, below the sea-level reference. -/
theorem calculateAltitude_formula_and_sign_witness :
    (0 : Int) < 90000 ∧ 0 < Altitude.calculateAltitude (fun x y : ℝ => x ^ y) 90000 :=
  ⟨by decide, (calculateAltitude_formula_and_sign 90000 (by decide)).2.2.1 (by decide)⟩

end MbedCopter
